import Mathlib

/-!
Verification development for the connection establishment and resilience
subsystem of the telethon userbot repository.

The definitions below are a shallow embedding, translated from the Python
source files:

* `config.py`                — backoff constants,
* `modules/reconnector.py`   — `run_with_reconnect`, the supervisor loop,
* `client.py`                — `extract_proxy_params`, `test_single_proxy`
                               and `find_working_proxy_async`.

Machine-level details are modelled explicitly: Python exceptions become
`Except` values, the asyncio task scheduling of `find_working_proxy_async`
becomes a small-step transition system driven by an explicit event schedule,
and the mutable `backoff_time` of the reconnect loop becomes explicit state
threading.
-/

/- ===================== config.py ===================== -/

/-- `BACKOFF_START` from `config.py`. -/
def BACKOFF_START : Nat := 1

/-- `BACKOFF_MAX` from `config.py`. -/
def BACKOFF_MAX : Nat := 300

/- ===================== modules/reconnector.py ===================== -/

/-- Outcome of one iteration of the `try` body in `run_with_reconnect`
(`modules/reconnector.py`): either the body returned normally, or one of the
`except` clauses was entered.  The branches mirror the source exactly:
`netErr` is `(OSError, ConnectionError, TimeoutError, asyncio.CancelledError)`,
`authKeyUnregistered` is `errors.AuthKeyUnregisteredError` (the environment
additionally determines whether the session file exists on disk and whether
the `client.start()` retry inside that handler raises), `floodWait` is
`errors.FloodWaitError` carrying `e.seconds`, `rpcErr` is `errors.RPCError`
and `unexpected` is the final bare `except Exception`. -/
inductive LoopEvent where
  | ok
  | netErr
  | authKeyUnregistered (sessionExists : Bool) (restartRaises : Bool)
  | floodWait (seconds : Nat)
  | rpcErr
  | unexpected
deriving DecidableEq

/-- Observable side effects performed by the reconnect loop:
`deleteSession` is the `os.remove(SESSION_FILENAME)` call, `restartAttempt`
is the `client.start()` call inside the auth-error handler, `sleep n` is
`await asyncio.sleep(n)`, and `enterConnecting` marks control returning to
the top of the `while True` loop (the Connecting phase of the state
machine). -/
inductive SupAction where
  | deleteSession
  | restartAttempt
  | sleep (seconds : Nat)
  | enterConnecting
deriving DecidableEq

/-- The `except` chain of `run_with_reconnect`, as a function from the current
`backoff_time` and the raised error to the new `backoff_time` and the list
of side effects performed, in order.  Line-by-line correspondence with
`modules/reconnector.py`:

* `netErr` (lines 38-42): `backoff_time = BACKOFF_START`, no sleep;
* `authKeyUnregistered` (lines 44-62): `os.remove` is invoked only when
  `os.path.exists(SESSION_FILENAME)` holds (a failure of `os.remove` itself is
  caught and only logged, so it is not distinguished here); then
  `backoff_time = BACKOFF_START`; then `client.start()` is attempted, and if
  it raises, `await asyncio.sleep(backoff_time)` runs (with `backoff_time`
  equal to the just-reset floor) followed by
  `backoff_time = min(backoff_time * 2, BACKOFF_MAX)`;
* `floodWait` (lines 64-68): `await asyncio.sleep(max(wait_time, backoff_time))`
  and `backoff_time` is left untouched;
* `rpcErr` (lines 70-74) and `unexpected` (lines 76-80):
  `backoff_time = BACKOFF_START`, no sleep. -/
def handleLoopError (backoff : Nat) (ev : LoopEvent) : Nat × List SupAction :=
  match ev with
  | .ok => (backoff, [])
  | .netErr => (BACKOFF_START, [])
  | .authKeyUnregistered sessionExists restartRaises =>
      let deleteActs := if sessionExists then [SupAction.deleteSession] else []
      let b1 := BACKOFF_START
      if restartRaises then
        (min (b1 * 2) BACKOFF_MAX,
         deleteActs ++ [SupAction.restartAttempt, SupAction.sleep b1])
      else
        (b1, deleteActs ++ [SupAction.restartAttempt])
  | .floodWait w => (backoff, [SupAction.sleep (max w backoff)])
  | .rpcErr => (BACKOFF_START, [])
  | .unexpected => (BACKOFF_START, [])

/-- The `while True` loop of `run_with_reconnect`, observed along a finite
prefix of iteration outcomes.  Each element of the event list is the outcome
of one iteration of the `try` body; the handler's side effects are emitted,
then control re-enters the top of the loop (`enterConnecting`) with the
updated `backoff_time`. -/
def run_with_reconnect (backoff : Nat) : List LoopEvent → List SupAction
  | [] => []
  | ev :: evs =>
      let r := handleLoopError backoff ev
      r.2 ++ SupAction.enterConnecting :: run_with_reconnect r.1 evs

/- ===================== theorems: supervisor backoff policy ===================== -/

/-- C1: in the reconnect loop, `backoff_time` is doubled (capped at
`BACKOFF_MAX`) only on the path where the backoff sleep has elapsed and the
retry attempt failed without a specific classification (the `start_err`
branch of the auth handler); on the `netErr`, `rpcErr`, `unexpected` and
`authKeyUnregistered` edges it is reset to `BACKOFF_START`, and every
possible outcome of the handler either keeps `backoff_time`, resets it to
the floor, or is that single capped doubling. -/
theorem run_with_reconnect_backoff_policy (b w : Nat) (se : Bool) :
    handleLoopError b .netErr = (BACKOFF_START, [])
  ∧ handleLoopError b .rpcErr = (BACKOFF_START, [])
  ∧ handleLoopError b .unexpected = (BACKOFF_START, [])
  ∧ (handleLoopError b (.authKeyUnregistered se false)).1 = BACKOFF_START
  ∧ (handleLoopError b (.authKeyUnregistered se true)).1
      = min (BACKOFF_START * 2) BACKOFF_MAX
  ∧ (handleLoopError b (.authKeyUnregistered se true)).2
      = (if se then [SupAction.deleteSession] else [])
        ++ [SupAction.restartAttempt, SupAction.sleep BACKOFF_START]
  ∧ (handleLoopError b (.floodWait w)).1 = b
  ∧ (∀ ev : LoopEvent,
        (handleLoopError b ev).1 = b
      ∨ (handleLoopError b ev).1 = BACKOFF_START
      ∨ ((handleLoopError b ev).1 = min (BACKOFF_START * 2) BACKOFF_MAX
          ∧ ∃ s, ev = .authKeyUnregistered s true)) := by
  refine ⟨rfl, rfl, rfl, rfl, rfl, rfl, rfl, ?_⟩
  intro ev
  cases ev with
  | ok => exact Or.inl rfl
  | netErr => exact Or.inr (Or.inl rfl)
  | authKeyUnregistered se rr =>
      cases rr with
      | false => exact Or.inr (Or.inl rfl)
      | true => exact Or.inr (Or.inr ⟨rfl, se, rfl⟩)
  | floodWait w => exact Or.inl rfl
  | rpcErr => exact Or.inr (Or.inl rfl)
  | unexpected => exact Or.inr (Or.inl rfl)

/-- C4: a `FloodWaitError` carrying wait `w`, raised at any point of the loop
body and with any current `backoff_time`, causes exactly one sleep of
duration `max w backoff_time`, after which control returns to the top of the
loop (the Connecting phase), with the backoff state unchanged for the rest
of the run. -/
theorem run_with_reconnect_floodwait_sleep (b w : Nat) (evs : List LoopEvent) :
    run_with_reconnect b (.floodWait w :: evs)
      = SupAction.sleep (max w b) :: SupAction.enterConnecting :: run_with_reconnect b evs := rfl

/-- C10: the `FloodWaitError` branch performs the sleep and nothing else:
`backoff_time` is neither reset to the floor nor doubled but passed through
unchanged, and no deletion or restart is performed — in contrast with every
other error branch, which resets the backoff to `BACKOFF_START` (or, on the
failed-restart sub-path of the auth handler, sets it to the capped
doubling). -/
theorem run_with_reconnect_floodwait_frame (b w : Nat) :
    handleLoopError b (.floodWait w) = (b, [SupAction.sleep (max w b)])
  ∧ (handleLoopError b .netErr).1 = BACKOFF_START
  ∧ (handleLoopError b .rpcErr).1 = BACKOFF_START
  ∧ (handleLoopError b .unexpected).1 = BACKOFF_START
  ∧ (∀ se : Bool,
        (handleLoopError b (.authKeyUnregistered se false)).1 = BACKOFF_START
      ∧ (handleLoopError b (.authKeyUnregistered se true)).1
          = min (BACKOFF_START * 2) BACKOFF_MAX) := by
  exact ⟨rfl, rfl, rfl, rfl, fun se => ⟨rfl, rfl⟩⟩

/-- C5 counterexample: on an `AuthKeyUnregisteredError` raised while the
session file does not exist, the session-delete call (`os.remove`) is not
invoked at all — it is guarded by `os.path.exists` — so it is not invoked
exactly once, refuting the claim for this input. -/
theorem run_with_reconnect_delete_skipped_when_no_session :
    ((handleLoopError 5 (.authKeyUnregistered false false)).2.count
        SupAction.deleteSession) ≠ 1 := by decide

/-- C5 amended: on an `AuthKeyUnregisteredError`, the session-delete call is
invoked exactly once when the session file exists (and zero times when it
does not), it precedes the restart attempt, and `backoff_time` is reset to
the floor before that restart (a failed restart then sleeps the floor value
and doubles the backoff, capped). -/
theorem run_with_reconnect_credential_delete_once (b : Nat) (rr : Bool) :
    handleLoopError b (.authKeyUnregistered true false)
      = (BACKOFF_START, [SupAction.deleteSession, SupAction.restartAttempt])
  ∧ handleLoopError b (.authKeyUnregistered true true)
      = (min (BACKOFF_START * 2) BACKOFF_MAX,
         [SupAction.deleteSession, SupAction.restartAttempt,
          SupAction.sleep BACKOFF_START])
  ∧ (handleLoopError b (.authKeyUnregistered true rr)).2.count
        SupAction.deleteSession = 1
  ∧ (handleLoopError b (.authKeyUnregistered false rr)).2.count
        SupAction.deleteSession = 0 := by
  cases rr with
  | false => exact ⟨rfl, rfl, rfl, rfl⟩
  | true => exact ⟨rfl, rfl, rfl, rfl⟩

/- ===================== client.py: probe tasks and scheduler ===================== -/

/-- Exceptions an individual connect attempt
(`temp_client.connect()` / `temp_client.disconnect()` in
`test_single_proxy`) may raise.  All of these derive from `Exception` in
Python and are therefore caught by the `except Exception` clause of
`test_single_proxy`. -/
inductive ConnErr where
  | timeout
  | refused
  | protocolMismatch
  | otherException
deriving DecidableEq

/-- `test_single_proxy` from `client.py`, with a candidate abstracted to its
index in the proxy list and the network interaction abstracted to the result
of the connect/disconnect round trip: on success the candidate tuple is
returned, and any raised `Exception` is absorbed into a `None` return — the
function itself never lets a connectivity exception escape (`.error` is
never produced). -/
def test_single_proxy (i : Nat) (connectResult : Except ConnErr Unit) :
    Except ConnErr (Option Nat) :=
  match connectResult with
  | .ok _ => .ok (some i)
  | .error _ => .ok none

/-- Status of one probe task (`asyncio.Task` running `test_single_proxy`):
`waiting` — created, blocked in `async with semaphore` waiting for a slot;
`running` — holding a slot, connect attempt in flight;
`done` — returned normally (slot released on exit of the `async with`);
`cancelRequested held` — `Task.cancel()` was called but the task has not run
again; `held` records whether it still owns a semaphore slot;
`terminated` — resumed after cancellation and finished (releasing its slot,
if any, via the `async with` exit). -/
inductive TStat where
  | waiting
  | running
  | done
  | cancelRequested (held : Bool)
  | terminated
deriving DecidableEq

/-- State of the driver coroutine `find_working_proxy_async`: still iterating
`asyncio.as_completed`, returned with a result, or terminated by an
exception re-raised from `await coro` (`raised` — shown unreachable,
because `test_single_proxy` absorbs all probe exceptions). -/
inductive DriverSt where
  | looping
  | returned (r : Option Nat)
  | raised (e : ConnErr)
deriving DecidableEq

/-- Global state of one execution of `find_working_proxy_async`: the status
of every probe task, the number of free semaphore slots, the queue of
completed tasks not yet consumed by the `as_completed` loop (in completion
order), and the driver status. -/
structure Sys where
  stat : List TStat
  avail : Nat
  compQueue : List Nat
  driver : DriverSt
deriving DecidableEq

/-- Default used to read past the end of the outcome list; irrelevant in any
run, since tasks beyond the candidate list never exist. -/
def defaultOutcome : Except ConnErr Unit := .error .otherException

/-- Scheduling events of the cooperative asyncio execution:
`start i` — task `i` acquires a semaphore slot and begins its connect
attempt; `complete i` — task `i`'s connect attempt resolves (with outcome
`o[i]`) and the task returns, releasing its slot; `driver` — the driver
coroutine runs: it consumes the next completed result, cancelling all
unfinished tasks and returning on the first truthy one, or returns `none`
once every task is done and consumed; `runCancelled i` — a
cancel-requested task is scheduled, propagates its `CancelledError` and
terminates, releasing its slot if it held one. -/
inductive SchedEv where
  | start (i : Nat)
  | complete (i : Nat)
  | driver
  | runCancelled (i : Nat)
deriving DecidableEq

/-- Effect of `t.cancel()` on a not-yet-done task
(`pending = [t for t in tasks if not t.done()]` followed by `p.cancel()`). -/
def cancelPending : TStat → TStat
  | .waiting => .cancelRequested false
  | .running => .cancelRequested true
  | st => st

/-- One scheduling step of the system.  Guards that do not hold make the
event a no-op (such an event is simply not enabled).  The semaphore is
`asyncio.Semaphore(20)` in the source; the slot count is kept as explicit
state initialised by `findWorkingInit`. -/
def sysStep (o : List (Except ConnErr Unit)) (s : Sys) : SchedEv → Sys
  | .start i =>
      match s.stat.get? i, s.avail with
      | some .waiting, Nat.succ a =>
          { s with stat := s.stat.set i .running, avail := a }
      | _, _ => s
  | .complete i =>
      match s.stat.get? i with
      | some .running =>
          { s with stat := s.stat.set i .done, avail := s.avail + 1,
                   compQueue := s.compQueue ++ [i] }
      | _ => s
  | .runCancelled i =>
      match s.stat.get? i with
      | some (.cancelRequested held) =>
          { s with stat := s.stat.set i .terminated,
                   avail := s.avail + (if held then 1 else 0) }
      | _ => s
  | .driver =>
      match s.driver with
      | .looping =>
          match s.compQueue with
          | j :: rest =>
              match test_single_proxy j (o.getD j defaultOutcome) with
              | .error e => { s with driver := .raised e }
              | .ok none => { s with compQueue := rest }
              | .ok (some c) =>
                  { s with compQueue := rest,
                           stat := s.stat.map cancelPending,
                           driver := .returned (some c) }
          | [] =>
              match s.stat.all (· = .done) with
              | true => { s with driver := .returned none }
              | false => s
      | _ => s

/-- Initial state of `find_working_proxy_async` over `n` candidates with a
semaphore of `limit` slots: all tasks created and waiting, no completions,
driver about to iterate `as_completed`. -/
def findWorkingInit (n limit : Nat) : Sys :=
  { stat := List.replicate n .waiting, avail := limit, compQueue := [], driver := .looping }

/-- Run the system along a schedule. -/
def runSys (o : List (Except ConnErr Unit)) (s : Sys) : List SchedEv → Sys
  | [] => s
  | e :: evs => runSys o (sysStep o s e) evs

/-- `find_working_proxy_async` from `client.py`: the system over the given
probe outcomes started from `n` candidate tasks and the hard-coded
`asyncio.Semaphore(20)`, observed along a schedule. -/
def find_working_proxy_async (o : List (Except ConnErr Unit)) (n : Nat)
    (evs : List SchedEv) : Sys :=
  runSys o (findWorkingInit n 20) evs

/-- Tasks currently holding a semaphore slot: those inside the `async with`
block (connect attempt in flight), including cancel-requested ones that
have not yet run their `CancelledError` through the `async with` exit. -/
def isHeld : TStat → Bool
  | .running => true
  | .cancelRequested held => held
  | _ => false

/-- Number of tasks holding a semaphore slot. -/
def countHeld (l : List TStat) : Nat := l.countP isHeld

/- ===================== scheduler helper lemmas ===================== -/

/-- `test_single_proxy` absorbs every exception of the connect round trip;
its result is never an escaping error. -/
theorem test_single_proxy_ne_error (i : Nat) (x : Except ConnErr Unit) (e : ConnErr) :
    test_single_proxy i x ≠ .error e := by
  cases x <;> simp [test_single_proxy]

/-- A truthy result of `test_single_proxy` is the task's own candidate and
certifies a successful connect outcome. -/
theorem test_single_proxy_ok_some {i c : Nat} {x : Except ConnErr Unit}
    (h : test_single_proxy i x = .ok (some c)) : c = i ∧ x = .ok () := by
  cases x with
  | ok u =>
      cases u
      simp only [test_single_proxy, Except.ok.injEq, Option.some.injEq] at h
      exact ⟨h.symm, rfl⟩
  | error e => simp [test_single_proxy] at h

/-- Requesting cancellation does not change slot ownership. -/
theorem isHeld_cancelPending (st : TStat) : isHeld (cancelPending st) = isHeld st := by
  cases st <;> rfl

/-- A task observed after the cancellation sweep is never still waiting or
running un-cancelled. -/
theorem cancelPending_not_pending (st : TStat) :
    cancelPending st ≠ .waiting ∧ cancelPending st ≠ .running := by
  cases st <;> exact ⟨nofun, nofun⟩

/-- Freshly created tasks hold no semaphore slot. -/
theorem countHeld_replicate_waiting (n : Nat) :
    countHeld (List.replicate n TStat.waiting) = 0 := by
  induction n with
  | zero => rfl
  | succ k ih =>
      rw [List.replicate_succ]
      unfold countHeld at *
      rw [List.countP_cons, ih]
      rfl

/-- The cancellation sweep preserves the number of held slots. -/
theorem countHeld_map_cancelPending (l : List TStat) :
    countHeld (l.map cancelPending) = countHeld l := by
  unfold countHeld
  rw [List.countP_map]
  exact List.countP_congr fun st _ => by
    simp [Function.comp, isHeld_cancelPending]

/- ===================== scheduler invariant ===================== -/

/-- Reachability invariant of `find_working_proxy_async` executions:
the task list length is fixed; free slots plus held slots equal the
semaphore size; the driver never dies on a re-raised probe exception; the
completion queue only holds real task indices; once the driver has returned
no task is left waiting or running without a cancellation request; and a
returned candidate is a real candidate whose probe outcome was a success. -/
structure SysInv (o : List (Except ConnErr Unit)) (n limit : Nat) (s : Sys) : Prop where
  len : s.stat.length = n
  slots : s.avail + countHeld s.stat = limit
  notRaised : ∀ e, s.driver ≠ .raised e
  queue_lt : ∀ j ∈ s.compQueue, j < n
  ret_noPending : ∀ r, s.driver = .returned r →
      ∀ st ∈ s.stat, st ≠ .waiting ∧ st ≠ .running
  ret_ok : ∀ c, s.driver = .returned (some c) →
      c < n ∧ o.getD c defaultOutcome = .ok ()

/-- The initial state satisfies the invariant. -/
theorem sysInv_init (o : List (Except ConnErr Unit)) (n limit : Nat) :
    SysInv o n limit (findWorkingInit n limit) := by
  refine ⟨?_, ?_, ?_, ?_, ?_, ?_⟩
  · show (List.replicate n TStat.waiting).length = n
    simp
  · show limit + countHeld (List.replicate n TStat.waiting) = limit
    rw [countHeld_replicate_waiting]
    omega
  · exact fun e => nofun
  · intro j hj
    exact absurd hj (List.not_mem_nil j)
  · exact fun r hr => nomatch hr
  · exact fun c hc => nomatch hc

/-- Every scheduling step preserves the invariant. -/
theorem sysInv_step {o : List (Except ConnErr Unit)} {n limit : Nat} {s : Sys}
    (h : SysInv o n limit s) (e : SchedEv) : SysInv o n limit (sysStep o s e) := by
  cases e with
  | start i =>
      simp only [sysStep]
      cases h1 : s.stat.get? i with
      | none => exact h
      | some st =>
          cases st with
          | waiting =>
              cases ha : s.avail with
              | zero => exact h
              | succ a =>
                  rw [List.get?_eq_getElem?] at h1
                  obtain ⟨hlt, hval⟩ := List.getElem?_eq_some.mp h1
                  have hcnt : List.countP isHeld (s.stat.set i TStat.running)
                      = List.countP isHeld s.stat + 1 := by
                    rw [List.countP_set isHeld s.stat i TStat.running hlt, hval]
                    simp [isHeld]
                  have hslots := h.slots
                  unfold countHeld at hslots
                  have hmem : TStat.waiting ∈ s.stat :=
                    List.getElem?_mem h1
                  refine ⟨?_, ?_, h.notRaised, h.queue_lt, ?_, h.ret_ok⟩
                  · show (s.stat.set i TStat.running).length = n
                    simp [h.len]
                  · show a + countHeld (s.stat.set i TStat.running) = limit
                    unfold countHeld
                    rw [hcnt]
                    omega
                  · intro r hr
                    exact False.elim ((h.ret_noPending r hr TStat.waiting hmem).1 rfl)
          | running => exact h
          | done => exact h
          | cancelRequested held => exact h
          | terminated => exact h
  | complete i =>
      simp only [sysStep]
      cases h1 : s.stat.get? i with
      | none => exact h
      | some st =>
          cases st with
          | running =>
              rw [List.get?_eq_getElem?] at h1
              obtain ⟨hlt, hval⟩ := List.getElem?_eq_some.mp h1
              have hpos : 0 < List.countP isHeld s.stat := by
                have hlb := List.boole_getElem_le_countP isHeld s.stat i hlt
                rw [hval] at hlb
                simpa [isHeld] using hlb
              have hcnt : List.countP isHeld (s.stat.set i TStat.done)
                  = List.countP isHeld s.stat - 1 := by
                rw [List.countP_set isHeld s.stat i TStat.done hlt, hval]
                simp [isHeld]
              have hslots := h.slots
              unfold countHeld at hslots
              refine ⟨?_, ?_, h.notRaised, ?_, ?_, h.ret_ok⟩
              · show (s.stat.set i TStat.done).length = n
                simp [h.len]
              · show s.avail + 1 + countHeld (s.stat.set i TStat.done) = limit
                unfold countHeld
                rw [hcnt]
                omega
              · intro j hj
                rcases List.mem_append.mp hj with hj | hj
                · exact h.queue_lt j hj
                · have hji : j = i := by simpa using hj
                  subst hji
                  exact h.len ▸ hlt
              · intro r hr
                exact False.elim
                  ((h.ret_noPending r hr TStat.running (List.getElem?_mem h1)).2 rfl)
          | waiting => exact h
          | done => exact h
          | cancelRequested held => exact h
          | terminated => exact h
  | runCancelled i =>
      simp only [sysStep]
      cases h1 : s.stat.get? i with
      | none => exact h
      | some st =>
          cases st with
          | cancelRequested held =>
              rw [List.get?_eq_getElem?] at h1
              obtain ⟨hlt, hval⟩ := List.getElem?_eq_some.mp h1
              have hslots := h.slots
              unfold countHeld at hslots
              have hnp : ∀ r, s.driver = DriverSt.returned r →
                  ∀ st ∈ s.stat.set i TStat.terminated,
                    st ≠ TStat.waiting ∧ st ≠ TStat.running := by
                intro r hr st hst
                rcases List.mem_or_eq_of_mem_set hst with hmem | hrfl
                · exact h.ret_noPending r hr st hmem
                · subst hrfl
                  exact ⟨nofun, nofun⟩
              cases held with
              | false =>
                  have hcnt : List.countP isHeld (s.stat.set i TStat.terminated)
                      = List.countP isHeld s.stat := by
                    rw [List.countP_set isHeld s.stat i TStat.terminated hlt, hval]
                    simp [isHeld]
                  refine ⟨?_, ?_, h.notRaised, h.queue_lt, hnp, h.ret_ok⟩
                  · show (s.stat.set i TStat.terminated).length = n
                    simp [h.len]
                  · show s.avail + 0 + countHeld (s.stat.set i TStat.terminated) = limit
                    unfold countHeld
                    rw [hcnt]
                    omega
              | true =>
                  have hpos : 0 < List.countP isHeld s.stat := by
                    have hlb := List.boole_getElem_le_countP isHeld s.stat i hlt
                    rw [hval] at hlb
                    simpa [isHeld] using hlb
                  have hcnt : List.countP isHeld (s.stat.set i TStat.terminated)
                      = List.countP isHeld s.stat - 1 := by
                    rw [List.countP_set isHeld s.stat i TStat.terminated hlt, hval]
                    simp [isHeld]
                  refine ⟨?_, ?_, h.notRaised, h.queue_lt, hnp, h.ret_ok⟩
                  · show (s.stat.set i TStat.terminated).length = n
                    simp [h.len]
                  · show s.avail + 1 + countHeld (s.stat.set i TStat.terminated) = limit
                    unfold countHeld
                    rw [hcnt]
                    omega
          | waiting => exact h
          | running => exact h
          | done => exact h
          | terminated => exact h
  | driver =>
      simp only [sysStep]
      split
      · rename_i h2
        split
        · rename_i j rest h3
          split
          · rename_i e h4
            exact absurd h4 (test_single_proxy_ne_error j _ e)
          · rename_i h4
            refine ⟨?_, ?_, ?_, ?_, ?_, ?_⟩
            · exact h.len
            · exact h.slots
            · exact h.notRaised
            · intro m hm
              refine h.queue_lt m ?_
              rw [h3]
              exact List.mem_cons_of_mem j hm
            · exact h.ret_noPending
            · exact h.ret_ok
          · rename_i c h4
            obtain ⟨hcj, hx⟩ := test_single_proxy_ok_some h4
            have hjlt : j < n := by
              refine h.queue_lt j ?_
              rw [h3]
              exact List.mem_cons_self j rest
            refine ⟨?_, ?_, ?_, ?_, ?_, ?_⟩
            · show (s.stat.map cancelPending).length = n
              simp [h.len]
            · show s.avail + countHeld (s.stat.map cancelPending) = limit
              rw [countHeld_map_cancelPending]
              exact h.slots
            · intro e he
              exact nomatch
                (show DriverSt.returned (some c) = DriverSt.raised e from he)
            · intro m hm
              refine h.queue_lt m ?_
              rw [h3]
              exact List.mem_cons_of_mem j hm
            · intro r _ st hst
              obtain ⟨b, _, hb⟩ := List.mem_map.mp hst
              subst hb
              exact cancelPending_not_pending b
            · intro q hq
              have hq2 : DriverSt.returned (some c) = DriverSt.returned (some q) := hq
              obtain rfl : c = q := Option.some.inj (DriverSt.returned.inj hq2)
              rw [hcj]
              exact ⟨hjlt, hx⟩
        · rename_i h3
          split
          · rename_i hall
            have hdone : ∀ st ∈ s.stat, st = TStat.done := by
              intro st hst
              have := List.all_eq_true.mp hall st hst
              simpa using this
            refine ⟨?_, ?_, ?_, ?_, ?_, ?_⟩
            · exact h.len
            · exact h.slots
            · intro e he
              exact nomatch (show DriverSt.returned none = DriverSt.raised e from he)
            · exact h.queue_lt
            · intro r _ st hst
              have := hdone st hst
              subst this
              exact ⟨nofun, nofun⟩
            · intro c hc
              have hc2 : DriverSt.returned none = DriverSt.returned (some c) := hc
              simp at hc2
          · exact h
      · exact h

/-- The invariant holds along every schedule. -/
theorem sysInv_run {o : List (Except ConnErr Unit)} {n limit : Nat} {s : Sys}
    (h : SysInv o n limit s) (evs : List SchedEv) : SysInv o n limit (runSys o s evs) := by
  induction evs generalizing s with
  | nil => exact h
  | cons e evs ih => exact ih (sysInv_step h e)

/- ===================== theorems: probe scheduler ===================== -/

/-- C9: along every schedule, the number of probe tasks simultaneously inside
their connect attempt (holding a semaphore slot) never exceeds the admission
gate size — in particular the source's hard-coded `asyncio.Semaphore(20)` —
a task whose `start` is attempted while no slot is free stays blocked (the
step is not enabled), and a slot is released when a connect attempt
completes (successfully, by timeout or by any other absorbed failure) and
when a cancelled slot-holding task terminates. -/
theorem find_working_semaphore_bound (o : List (Except ConnErr Unit))
    (n limit : Nat) (evs : List SchedEv) :
    countHeld (runSys o (findWorkingInit n limit) evs).stat ≤ limit
  ∧ countHeld (find_working_proxy_async o n evs).stat ≤ 20
  ∧ (∀ (p : List (Except ConnErr Unit)) (s : Sys) (i : Nat),
        s.avail = 0 → sysStep p s (.start i) = s)
  ∧ (∀ (p : List (Except ConnErr Unit)) (s : Sys) (i : Nat),
        s.stat.get? i = some .running → (sysStep p s (.complete i)).avail = s.avail + 1)
  ∧ (∀ (p : List (Except ConnErr Unit)) (s : Sys) (i : Nat) (held : Bool),
        s.stat.get? i = some (.cancelRequested held) →
          (sysStep p s (.runCancelled i)).avail
            = s.avail + (if held then 1 else 0)) := by
  refine ⟨?_, ?_, ?_, ?_, ?_⟩
  · have hinv := sysInv_run (sysInv_init o n limit) evs
    have := hinv.slots
    omega
  · have hinv := sysInv_run (sysInv_init o n 20) evs
    have := hinv.slots
    unfold find_working_proxy_async
    omega
  · intro p s i ha
    simp only [sysStep]
    cases h1 : s.stat.get? i with
    | none => rfl
    | some st =>
        cases st with
        | waiting => rw [ha]
        | running => rfl
        | done => rfl
        | cancelRequested held => rfl
        | terminated => rfl
  · intro p s i h1
    simp only [sysStep]
    rw [h1]
  · intro p s i held h1
    simp only [sysStep]
    rw [h1]

/-- C9 witness: the bound holds on a concrete three-candidate run with a
two-slot gate, and a concrete blocked `start` with zero free slots is a
no-op. -/
theorem find_working_semaphore_bound_witness :
    countHeld (runSys ([]) (findWorkingInit 3 2)
        [SchedEv.start 0, SchedEv.start 1, SchedEv.start 2]).stat ≤ 2
  ∧ sysStep ([]) (Sys.mk [TStat.waiting] 0 [] DriverSt.looping) (.start 0)
      = Sys.mk [TStat.waiting] 0 [] DriverSt.looping := by
  refine ⟨(find_working_semaphore_bound ([]) 3 2 _).1, ?_⟩
  exact (find_working_semaphore_bound ([]) 3 2 []).2.2.1
    ([]) (Sys.mk [TStat.waiting] 0 [] DriverSt.looping) 0 rfl

/-- C6: the probe layer is total — `test_single_proxy` absorbs every failing
connect outcome into a `None` result and returns the candidate on success;
`find_working_proxy_async` on an empty candidate list answers `none` on the
driver's first step; and along every schedule over any outcomes the driver
never ends in a raised exception. -/
theorem find_working_total (o : List (Except ConnErr Unit))
    (c n limit : Nat) (evs : List SchedEv) :
    (∀ e : ConnErr, test_single_proxy c (.error e) = .ok none)
  ∧ test_single_proxy c (.ok ()) = .ok (some c)
  ∧ (find_working_proxy_async o 0 [SchedEv.driver]).driver = .returned none
  ∧ (∀ e : ConnErr,
        (runSys o (findWorkingInit n limit) evs).driver ≠ .raised e) := by
  refine ⟨fun e => rfl, rfl, rfl, ?_⟩
  exact (sysInv_run (sysInv_init o n limit) evs).notRaised

/-- Probe outcomes for the C2 scenario: candidate 0 succeeds, candidate 1
times out (but its probe is still in flight at the decisive moment). -/
def cexOutcomes : List (Except ConnErr Unit) := [.ok (), .error .timeout]

/-- Schedule for the C2 scenario: both probes acquire slots, probe 0
completes successfully, then the driver consumes that completion, cancels
probe 1 and returns. -/
def cexSchedule : List SchedEv :=
  [SchedEv.start 0, SchedEv.start 1, SchedEv.complete 0, SchedEv.driver]

/-- C2 counterexample: in a two-candidate run where exactly candidate 0
succeeds, at the moment `find_working_proxy_async` returns candidate 0 the
other task has only had its cancellation requested (`Task.cancel()` with no
further await) and has neither terminated nor completed — the function does
not wait for cancelled tasks before returning, refuting the claim. -/
theorem find_working_cancelled_not_terminated :
    (find_working_proxy_async cexOutcomes 2 cexSchedule).driver
      = DriverSt.returned (some 0)
  ∧ (find_working_proxy_async cexOutcomes 2 cexSchedule).stat.get? 1
      = some (TStat.cancelRequested true)
  ∧ TStat.cancelRequested true ≠ TStat.terminated
  ∧ TStat.cancelRequested true ≠ TStat.done := by
  refine ⟨?_, ?_, ?_, ?_⟩ <;> decide

/-- Truthiness of a probe outcome: whether the connect round trip succeeded. -/
def outcomeOk : Except ConnErr Unit → Bool
  | .ok _ => true
  | .error _ => false

/-- C2 amended: whenever `find_working_proxy_async` returns a candidate and
exactly one probe outcome is a success, the returned candidate is that
unique success, and at the moment of return every probe task has either
finished or had its cancellation requested (none is still waiting or
running un-cancelled); the cancelled tasks need not have terminated yet. -/
theorem find_working_first_success_cancel_requested
    (o : List (Except ConnErr Unit)) (n limit c i0 : Nat) (evs : List SchedEv)
    (hret : (runSys o (findWorkingInit n limit) evs).driver
        = DriverSt.returned (some c))
    (huniq : ∀ j, j < n → (outcomeOk (o.getD j defaultOutcome) = true ↔ j = i0)) :
    c = i0
  ∧ (∀ st ∈ (runSys o (findWorkingInit n limit) evs).stat,
        st ≠ TStat.waiting ∧ st ≠ TStat.running) := by
  have hinv := sysInv_run (sysInv_init o n limit) evs
  have hok := hinv.ret_ok c hret
  have htrue : outcomeOk (o.getD c defaultOutcome) = true := by
    rw [hok.2]
    rfl
  exact ⟨(huniq c hok.1).mp htrue, hinv.ret_noPending (some c) hret⟩

/-- C2 amended witness: instantiated on the concrete two-candidate scenario
in which candidate 0 is the unique success. -/
theorem find_working_first_success_cancel_requested_witness :
    (0 : Nat) = 0
  ∧ (∀ st ∈ (runSys cexOutcomes (findWorkingInit 2 20) cexSchedule).stat,
        st ≠ TStat.waiting ∧ st ≠ TStat.running) :=
  find_working_first_success_cancel_requested cexOutcomes 2 20 0 0 cexSchedule
    (by decide) (by decide)

/- ===================== Python primitive helpers (for client.py's parser) ===================== -/

/-- Python exceptions that `extract_proxy_params` can produce or swallow;
`bytes.fromhex`, `int()` and the base64 decoders all raise (subclasses of)
`ValueError`. -/
inductive PyExn where
  | valueError
deriving DecidableEq

/-- ASCII whitespace as stripped by `int()` and skipped by `bytes.fromhex`
(the Unicode whitespace CPython also accepts never occurs in the ASCII
relay-invite lines modelled here). -/
def isPySpace (c : Char) : Bool :=
  c == ' ' || c == '\t' || c == '\n' || c == '\r' || c == '\x0B' || c == '\x0C'

/-- Value of a hexadecimal digit. -/
def hexVal (c : Char) : Option Nat :=
  let n := c.toNat
  if 48 ≤ n && n ≤ 57 then some (n - 48)
  else if 97 ≤ n && n ≤ 102 then some (n - 87)
  else if 65 ≤ n && n ≤ 70 then some (n - 55)
  else none

/-- Digit-sequence value for `int()`: nonempty decimal digits in which an
underscore may appear only between two digits. -/
def digitsVal : List Char → Nat → Option Nat
  | [], acc => some acc
  | '_' :: c :: rest, acc =>
      if c.isDigit then digitsVal rest (acc * 10 + (c.toNat - 48)) else none
  | c :: rest, acc =>
      if c.isDigit then digitsVal rest (acc * 10 + (c.toNat - 48)) else none

/-- `int(s)` as used on the `port` query parameter: optional surrounding
whitespace, optional sign, then a digit sequence (with underscores between
digits); any other shape raises `ValueError`, which the caller catches. -/
def pyIntParse (l : List Char) : Option Int :=
  let cs := ((l.dropWhile isPySpace).reverse.dropWhile isPySpace).reverse
  match cs with
  | '-' :: c :: rest =>
      if c.isDigit then (digitsVal rest (c.toNat - 48)).map (fun v => -(v : Int)) else none
  | '+' :: c :: rest =>
      if c.isDigit then (digitsVal rest (c.toNat - 48)).map (fun v => (v : Int)) else none
  | c :: rest =>
      if c.isDigit then (digitsVal rest (c.toNat - 48)).map (fun v => (v : Int)) else none
  | [] => none

def utf8DecodeReplaceGo : Nat → List Nat → List Char
  | 0, _ => []
  | _ + 1, [] => []
  | fuel + 1, b1 :: rest =>
      if b1 < 128 then Char.ofNat b1 :: utf8DecodeReplaceGo fuel rest
      else if 194 ≤ b1 && b1 ≤ 223 then
        match rest with
        | b2 :: rest2 =>
            if 128 ≤ b2 && b2 ≤ 191 then
              Char.ofNat ((b1 - 192) * 64 + (b2 - 128)) :: utf8DecodeReplaceGo fuel rest2
            else Char.ofNat 65533 :: utf8DecodeReplaceGo fuel (b2 :: rest2)
        | [] => [Char.ofNat 65533]
      else if 224 ≤ b1 && b1 ≤ 239 then
        match rest with
        | b2 :: b3 :: rest3 =>
            if (128 ≤ b2 && b2 ≤ 191) && (128 ≤ b3 && b3 ≤ 191)
                && !(b1 == 224 && b2 < 160) && !(b1 == 237 && 160 ≤ b2) then
              Char.ofNat ((b1 - 224) * 4096 + (b2 - 128) * 64 + (b3 - 128))
                :: utf8DecodeReplaceGo fuel rest3
            else Char.ofNat 65533 :: utf8DecodeReplaceGo fuel (b2 :: b3 :: rest3)
        | other => Char.ofNat 65533 :: utf8DecodeReplaceGo fuel other
      else if 240 ≤ b1 && b1 ≤ 244 then
        match rest with
        | b2 :: b3 :: b4 :: rest4 =>
            if (128 ≤ b2 && b2 ≤ 191) && (128 ≤ b3 && b3 ≤ 191) && (128 ≤ b4 && b4 ≤ 191)
                && !(b1 == 240 && b2 < 144) && !(b1 == 244 && 144 ≤ b2) then
              Char.ofNat ((b1 - 240) * 262144 + (b2 - 128) * 4096
                  + (b3 - 128) * 64 + (b4 - 128)) :: utf8DecodeReplaceGo fuel rest4
            else Char.ofNat 65533 :: utf8DecodeReplaceGo fuel (b2 :: b3 :: b4 :: rest4)
        | other => Char.ofNat 65533 :: utf8DecodeReplaceGo fuel other
      else Char.ofNat 65533 :: utf8DecodeReplaceGo fuel rest

/-- Decode a byte sequence as UTF-8 with `errors='replace'`: well-formed
sequences decode to their code point and any invalid byte contributes one
U+FFFD replacement character.  (CPython merges certain maximal invalid
subsequences into a single replacement character; the difference is not
exercised below, where only ASCII bytes occur.)  Every step consumes at
least one byte, so a fuel equal to the length suffices. -/
def utf8DecodeReplace (l : List Nat) : List Char := utf8DecodeReplaceGo l.length l

/-- Tokenise a string for `urllib.parse.unquote`: each valid `%XX` escape
becomes a byte token; every other character (including a `%` not followed
by two hex digits, which Python leaves literally) stays a character
token. -/
def pctTokens : List Char → List (Sum Nat Char)
  | [] => []
  | '%' :: a :: b :: rest =>
      match hexVal a, hexVal b with
      | some ha, some hb => Sum.inl (ha * 16 + hb) :: pctTokens rest
      | _, _ => Sum.inr '%' :: pctTokens (a :: b :: rest)
  | c :: rest => Sum.inr c :: pctTokens rest

/-- Rebuild the unquoted string: maximal runs of byte tokens are decoded as
UTF-8 with replacement (matching `unquote(..., errors='replace')`),
character tokens pass through.  The accumulator holds the current byte run
in reverse. -/
def pctDetok : List (Sum Nat Char) → List Nat → List Char
  | [], acc => utf8DecodeReplace acc.reverse
  | Sum.inl b :: rest, acc => pctDetok rest (b :: acc)
  | Sum.inr c :: rest, acc =>
      utf8DecodeReplace acc.reverse ++ c :: pctDetok rest []

/-- `urllib.parse.unquote(s, encoding='utf-8', errors='replace')`. -/
def pyUnquote (l : List Char) : List Char := pctDetok (pctTokens l) []

/-- `unquote(s.replace('+', ' '))` — the decoding `parse_qsl` applies to
names and values. -/
def pyUnquotePlus (l : List Char) : List Char :=
  pyUnquote (l.map fun c => if c == '+' then ' ' else c)

/- ===================== urllib.parse: urlparse and parse_qs ===================== -/

/-- `str.split(sep)` for a one-character separator (as `parse_qsl` splits the
query string on the `'&'` separator): empty pieces are kept. -/
def splitOnCharList (sep : Char) : List Char → List (List Char)
  | [] => [[]]
  | c :: rest =>
      match splitOnCharList sep rest with
      | g :: gs => if c == sep then [] :: g :: gs else (c :: g) :: gs
      | [] => [[c]]

/-- Split a character list at the first occurrence of `sep`
(`str.split(sep, 1)` when the separator occurs; `none` otherwise). -/
def splitFirstAt (sep : Char) : List Char → Option (List Char × List Char)
  | [] => none
  | c :: rest =>
      if c == sep then some ([], rest)
      else
        match splitFirstAt sep rest with
        | some (a, b) => some (c :: a, b)
        | none => none

/-- `urllib.parse.parse_qsl(qs)` with the library defaults
(`keep_blank_values=False`, `strict_parsing=False`, separator `'&'`):
fields are split on `'&'`, empty fields and fields without `'='` or with an
empty value are dropped, and names and values are decoded with
`unquote(x.replace('+', ' '))`. -/
def parse_qsl (qs : List Char) : List (List Char × List Char) :=
  (splitOnCharList '&' qs).filterMap fun nv =>
    if nv.isEmpty then none
    else
      match splitFirstAt '=' nv with
      | none => none
      | some (nm, v) =>
          if v.isEmpty then none else some (pyUnquotePlus nm, pyUnquotePlus v)

/-- `parse_qs(qs).get(key, [None])[0]`: the first value parsed for `key`,
or `none` when the key is absent. -/
def qsGet (pairs : List (List Char × List Char)) (key : List Char) : Option (List Char) :=
  match pairs with
  | [] => none
  | (nm, v) :: rest => if nm == key then some v else qsGet rest key

/-- Characters allowed in a URL scheme (`urllib.parse.scheme_chars`). -/
def schemeChar (c : Char) : Bool :=
  c.isAlpha || c.isDigit || c == '+' || c == '-' || c == '.'

/-- The scheme-splitting step of `urlsplit`: a scheme is recognised when the
first `':'` has a nonempty ASCII-letter-initial prefix of scheme
characters before it; the scheme is lower-cased. -/
def splitScheme (l : List Char) : List Char × List Char :=
  match splitFirstAt ':' l with
  | none => ([], l)
  | some (before, after) =>
      match before with
      | [] => ([], l)
      | c0 :: _ =>
          if c0.toNat < 128 && c0.isAlpha && before.all schemeChar then
            (before.map Char.toLower, after)
          else ([], l)

/-- The result fields of `urlparse` consumed by `extract_proxy_params`
(`params` and `fragment` are split off but unused). -/
structure UrlParts where
  scheme : List Char
  netloc : List Char
  path : List Char
  query : List Char
deriving DecidableEq

/-- The `_splitparams` step of `urlparse`: a `';'` at or after the last `'/'`
(or anywhere, when there is no `'/'`) starts the params part, which is cut
off the path. -/
def splitParamsList (l : List Char) : List Char :=
  if l.contains '/' then
    let lastSeg := ((l.reverse.takeWhile fun c => !(c == '/'))).reverse
    let pre := ((l.reverse.dropWhile fun c => !(c == '/'))).reverse
    if lastSeg.contains ';' then pre ++ lastSeg.takeWhile (fun c => !(c == ';'))
    else l
  else if l.contains ';' then l.takeWhile (fun c => !(c == ';'))
  else l

/-- `urllib.parse.urlparse` restricted to the fields the parser reads.
Mirrors `urlsplit`: the unsafe bytes `'\t'`, `'\r'`, `'\n'` are removed
first; then the scheme, the `'//'`-introduced netloc (up to the first of
`'/'`, `'?'`, `'#'`), the fragment (after the first `'#'`) and the query
(after the first `'?'`) are split off, and `_splitparams` trims the params
from the path.  (The `ValueError` that `urlsplit` raises for unbalanced
IPv6 brackets in the netloc, and the `_checknetloc` check on non-ASCII
netlocs, are not modelled; no input below contains them, and any input with
a bracketed or non-ASCII netloc fails the `t.me` comparison anyway.) -/
def pyUrlparse (s : String) : UrlParts :=
  let url0 := s.toList.filter fun c => !(c == '\t' || c == '\r' || c == '\n')
  let sr := splitScheme url0
  let scheme := sr.1
  let nlr :=
    match sr.2 with
    | '/' :: '/' :: rest =>
        ((rest.takeWhile fun c => !(c == '/' || c == '?' || c == '#')),
         (rest.dropWhile fun c => !(c == '/' || c == '?' || c == '#')))
    | other => ([], other)
  let url2 :=
    match splitFirstAt '#' nlr.2 with
    | some (beforeFrag, _) => beforeFrag
    | none => nlr.2
  let pq :=
    match splitFirstAt '?' url2 with
    | some (p, q) => (p, q)
    | none => (url2, [])
  { scheme := scheme, netloc := nlr.1, path := splitParamsList pq.1, query := pq.2 }

/- ===================== client.py: secret decoding and extract_proxy_params ===================== -/

/-- The hexadecimal characters of the literal membership test
`c in '0123456789abcdefABCDEF'` on line 35 of `client.py`. -/
def HEX_CHARS : List Char := (("0123456789abcdefABCDEF").toList)

/-- Membership in the hex-character set. -/
def isHexChar (c : Char) : Bool := HEX_CHARS.contains c

/-- `l.startswith(p)` on character lists. -/
def startsWithList : List Char → List Char → Bool
  | [], _ => true
  | _ :: _, [] => false
  | a :: ps, b :: ls => a == b && startsWithList ps ls

/-- The guard of line 35 of `client.py`:
`secret_encoded.startswith(('dd', 'ee')) and all(c in '0123...' for c in secret_encoded)`. -/
def secretIsHexForm (l : List Char) : Bool :=
  (startsWithList (("dd").toList) l || startsWithList (("ee").toList) l)
    && l.all isHexChar

/-- `bytes.fromhex`: two hex digits per byte, ASCII whitespace skipped
between bytes; an odd trailing digit or a non-hex character raises
`ValueError` — which line 36 of `client.py` does not catch. -/
def pyBytesFromhex : List Char → Except PyExn (List Nat)
  | [] => .ok []
  | c :: rest =>
      if isPySpace c then pyBytesFromhex rest
      else
        match hexVal c, rest with
        | some h1, c2 :: rest2 =>
            (match hexVal c2 with
             | some h2 =>
                 match pyBytesFromhex rest2 with
                 | .ok bs => .ok ((h1 * 16 + h2) :: bs)
                 | .error e => .error e
             | none => .error .valueError)
        | _, _ => .error .valueError

/-- Standard base64 alphabet value of a character (`binascii`'s
`table_a2b_base64`). -/
def b64Val (c : Char) : Option Nat :=
  let n := c.toNat
  if 65 ≤ n && n ≤ 90 then some (n - 65)
  else if 97 ≤ n && n ≤ 122 then some (n - 71)
  else if 48 ≤ n && n ≤ 57 then some (n + 4)
  else if c == '+' then some 62
  else if c == '/' then some 63
  else none

/-- `binascii.a2b_base64` in non-strict mode (CPython): characters outside
the alphabet are skipped; a padding `'='` is counted only once two data
characters of the current quad have been seen, and decoding stops
successfully when the quad is completed by padding; a leftover quad of one
data character, or of two or three without sufficient padding, raises
`binascii.Error` (a `ValueError`).  State: remaining input, position in the
current quad, pending bits, padding count. -/
def a2b_base64 : List Char → Nat → Nat → Nat → Except PyExn (List Nat)
  | [], quad, _, _ => if quad == 0 then .ok [] else .error .valueError
  | c :: rest, quad, leftchar, pads =>
      if c == '=' then
        if 2 ≤ quad then
          if 4 ≤ quad + (pads + 1) then .ok []
          else a2b_base64 rest quad leftchar (pads + 1)
        else a2b_base64 rest quad leftchar pads
      else
        match b64Val c with
        | none => a2b_base64 rest quad leftchar pads
        | some v =>
            match quad with
            | 0 => a2b_base64 rest 1 v 0
            | 1 =>
                (match a2b_base64 rest 2 (v % 16) 0 with
                 | .ok bs => .ok ((leftchar * 4 + v / 16) :: bs)
                 | .error e => .error e)
            | 2 =>
                (match a2b_base64 rest 3 (v % 4) 0 with
                 | .ok bs => .ok ((leftchar * 16 + v / 4) :: bs)
                 | .error e => .error e)
            | _ =>
                (match a2b_base64 rest 0 0 0 with
                 | .ok bs => .ok ((leftchar * 64 + v) :: bs)
                 | .error e => .error e)

/-- `base64.urlsafe_b64decode` on a `str` argument: the string must be pure
ASCII (else `ValueError`), `'-'`/`'_'` are translated to `'+'`/`'/'`, and
the result is decoded by non-strict `a2b_base64`. -/
def pyUrlsafeB64decode (l : List Char) : Except PyExn (List Nat) :=
  if l.any (fun c => 128 ≤ c.toNat) then .error .valueError
  else
    a2b_base64
      (l.map fun c => if c == '-' then '+' else if c == '_' then '/' else c) 0 0 0

/-- The sixteen lowercase hex digits used by `bytes.hex()`. -/
def HEX_DIGITS_LOWER : List Char := (("0123456789abcdef").toList)

/-- Lowercase hex digit of `n % 16`. -/
def hexDigitChar (n : Nat) : Char := HEX_DIGITS_LOWER.getD (n % 16) '0'

/-- `bytes.hex()`: two lowercase hex digits per byte. -/
def bytesToHex : List Nat → List Char
  | [] => []
  | b :: bs => hexDigitChar (b / 16) :: hexDigitChar b :: bytesToHex bs

/-- Lines 34-42 of `client.py`: the secret is decoded directly as hex when
it is all-hex and starts with `'dd'` or `'ee'` — where `bytes.fromhex` sits
outside any `try`, so its `ValueError` escapes — and otherwise as URL-safe
base64 of the string with `'%3D'` restored to `'='`, where any decode
failure is caught and turned into a `None` return. -/
def replacePct3D : List Char → List Char
  | '%' :: '3' :: 'D' :: rest => '=' :: replacePct3D rest
  | c :: rest => c :: replacePct3D rest
  | [] => []

/-- The secret-decoding step (lines 35-42 of `client.py`); see
`replacePct3D`.  The result is the raw `secret_bytes`. -/
def decodeSecret (l : List Char) : Except PyExn (Option (List Nat)) :=
  if secretIsHexForm l then
    match pyBytesFromhex l with
    | .ok bs => .ok (some bs)
    | .error e => .error e
  else
    match pyUrlsafeB64decode (replacePct3D l) with
    | .ok bs => .ok (some bs)
    | .error _ => .ok none

/-- `extract_proxy_params` from `client.py`.  `Except.error` models an
uncaught Python exception escaping the function, `.ok none` the `None`
returns, and `.ok (some (server, port, secret))` the success tuple, whose
`secret` is `secret_bytes.hex()`. -/
def extract_proxy_params (proxy_url : String) :
    Except PyExn (Option (String × Int × String)) :=
  let parsed := pyUrlparse proxy_url
  if !(parsed.scheme == ("https").toList && parsed.netloc == ("t.me").toList
        && parsed.path == ("/proxy").toList) then
    .ok none
  else
    let query := parse_qsl parsed.query
    let server := qsGet query (("server").toList)
    let port_str := qsGet query (("port").toList)
    let secret_encoded := qsGet query (("secret").toList)
    match server, port_str, secret_encoded with
    | some sv, some ps, some se =>
        if sv.isEmpty || ps.isEmpty || se.isEmpty then .ok none
        else
          match pyIntParse ps with
          | none => .ok none
          | some port =>
              match decodeSecret se with
              | .error e => .error e
              | .ok none => .ok none
              | .ok (some bs) =>
                  .ok (some (String.mk sv, port, String.mk (bytesToHex bs)))
    | _, _, _ => .ok none

/- ===================== lemmas: secret well-formedness ===================== -/

/-- A `bytes.hex()` digit is always in the hex-character set. -/
theorem isHexChar_hexDigitChar (n : Nat) : isHexChar (hexDigitChar n) = true := by
  unfold hexDigitChar
  have h : n % 16 < 16 := Nat.mod_lt _ (by omega)
  set k := n % 16 with hk
  interval_cases k <;> rfl

/-- `bytes.hex()` output has two characters per byte. -/
theorem bytesToHex_length (bs : List Nat) : (bytesToHex bs).length = 2 * bs.length := by
  induction bs with
  | nil => rfl
  | cons b bs ih =>
      simp only [bytesToHex, List.length_cons, ih]
      omega

/-- Every character of a `bytes.hex()` output is a hex character. -/
theorem bytesToHex_all_hex (bs : List Nat) : (bytesToHex bs).all isHexChar = true := by
  induction bs with
  | nil => rfl
  | cons b bs ih =>
      simp only [bytesToHex, List.all_cons, ih, isHexChar_hexDigitChar]
      rfl

/- ===================== theorems: candidate parser ===================== -/

/-- C3: the secret is decoded as hexadecimal exactly when it is composed
entirely of hex characters and starts with one of the two type-prefix
markers (`dd`, `ee`) — in which case the result is the direct
`bytes.fromhex` decoding — and every other secret string is decoded as
URL-safe base64 after `'%3D'` is restored to `'='`, a decode failure
becoming a `None` return; two full-pipeline instances show the candidate's
stored secret equal to the hex encoding of the respective direct
decoding. -/
theorem extract_secret_decoding_policy (s : List Char) :
    (secretIsHexForm s = true ↔
        ((startsWithList (("dd").toList) s || startsWithList (("ee").toList) s)
          && s.all isHexChar) = true)
  ∧ (secretIsHexForm s = true →
        decodeSecret s = Except.map some (pyBytesFromhex s))
  ∧ (secretIsHexForm s = false →
        ∀ bs, pyUrlsafeB64decode (replacePct3D s) = .ok bs →
          decodeSecret s = .ok (some bs))
  ∧ (secretIsHexForm s = false →
        ∀ e, pyUrlsafeB64decode (replacePct3D s) = .error e →
          decodeSecret s = .ok none)
  ∧ extract_proxy_params ("https://t.me/proxy?server=h&port=1&secret=dd10ff")
      = .ok (some (("h"), (1 : Int), ("dd10ff")))
  ∧ extract_proxy_params ("https://t.me/proxy?server=h&port=1&secret=AAAA")
      = .ok (some (("h"), (1 : Int), ("000000"))) := by
  refine ⟨Iff.rfl, ?_, ?_, ?_, rfl, rfl⟩
  · intro hguard
    unfold decodeSecret
    rw [if_pos hguard]
    cases pyBytesFromhex s <;> rfl
  · intro hguard bs hb
    unfold decodeSecret
    rw [if_neg (by simp [hguard]), hb]
  · intro hguard e hb
    unfold decodeSecret
    rw [if_neg (by simp [hguard]), hb]

/-- C3 witness: the hex branch on the all-hex `dd`-prefixed secret
`dd10ff`, and the base64 branch on the non-prefixed secret `AAAA`. -/
theorem extract_secret_decoding_policy_witness :
    decodeSecret (("dd10ff").toList)
      = Except.map some (pyBytesFromhex (("dd10ff").toList))
  ∧ decodeSecret (("AAAA").toList) = .ok (some [0, 0, 0]) :=
  ⟨(extract_secret_decoding_policy (("dd10ff").toList)).2.1 (by rfl),
   (extract_secret_decoding_policy (("AAAA").toList)).2.2.1 (by rfl) [0, 0, 0] (by rfl)⟩

/-- C7 (code bug): an odd-length all-hex secret with a known prefix, such as
`ddd`, sends `extract_proxy_params` into the hex branch whose
`bytes.fromhex` call sits outside any `try`, so the `ValueError` escapes
instead of producing the documented `None` return — the parser does throw
on this undecodable secret.  Representative malformed inputs of the other
kinds (wrong scheme, wrong host, wrong path, missing `server`/`port`/
`secret`, non-numeric port, undecodable base64 secret) do return the error
value `None`. -/
theorem extract_odd_hex_secret_raises :
    extract_proxy_params ("https://t.me/proxy?server=a&port=1&secret=ddd")
      = .error PyExn.valueError
  ∧ extract_proxy_params ("http://t.me/proxy?server=h&port=1&secret=AAAA") = .ok none
  ∧ extract_proxy_params ("https://x.me/proxy?server=h&port=1&secret=AAAA") = .ok none
  ∧ extract_proxy_params ("https://t.me/other?server=h&port=1&secret=AAAA") = .ok none
  ∧ extract_proxy_params ("https://t.me/proxy?port=1&secret=AAAA") = .ok none
  ∧ extract_proxy_params ("https://t.me/proxy?server=h&secret=AAAA") = .ok none
  ∧ extract_proxy_params ("https://t.me/proxy?server=h&port=1") = .ok none
  ∧ extract_proxy_params ("https://t.me/proxy?server=h&port=x7&secret=AAAA") = .ok none
  ∧ extract_proxy_params ("https://t.me/proxy?server=h&port=1&secret=ab") = .ok none := by
  exact ⟨rfl, rfl, rfl, rfl, rfl, rfl, rfl, rfl, rfl⟩

/-- C8 counterexample: the URL
`https://t.me/proxy?server=a&port=0&secret=%3D%3D%3D%3D` is parsed
successfully into the candidate `("a", 0, "")` — its port `0` is outside
1-65535 (the parser performs no range check on `int(port)`) and its secret
is empty (base64 padding alone decodes to zero bytes) — refuting the
claimed data-model invariant. -/
theorem extract_candidate_invariant_fails :
    extract_proxy_params ("https://t.me/proxy?server=a&port=0&secret=%3D%3D%3D%3D")
      = .ok (some (("a"), (0 : Int), ("")))
  ∧ ¬((1 : Int) ≤ 0 ∧ (0 : Int) ≤ 65535 ∧ ("" : String) ≠ ("")) := by
  exact ⟨rfl, by simp⟩

/-- C8 amended: every candidate returned by `extract_proxy_params` carries a
secret that is the `bytes.hex()` encoding of the decoded byte sequence —
hence of even length and made of hex characters only — while the port is
the unchecked `int(...)` value (which, as the counterexample shows, may lie
outside 1-65535, and the secret may be empty). -/
theorem extract_candidate_secret_wellformed (url sv : String) (p : Int) (sec : String)
    (h : extract_proxy_params url = .ok (some (sv, p, sec))) :
    (∃ bs : List Nat, sec = String.mk (bytesToHex bs))
  ∧ sec.length % 2 = 0
  ∧ sec.toList.all isHexChar = true := by
  simp only [extract_proxy_params] at h
  split at h
  · exact absurd h (by simp)
  · split at h
    · split at h
      · exact absurd h (by simp)
      · split at h
        · exact absurd h (by simp)
        · split at h
          · exact absurd h (by simp)
          · exact absurd h (by simp)
          · rename_i bs heq
            simp only [Except.ok.injEq, Option.some.injEq, Prod.mk.injEq] at h
            obtain ⟨-, -, hsec⟩ := h
            subst hsec
            refine ⟨⟨bs, rfl⟩, ?_, ?_⟩
            · show (bytesToHex bs).length % 2 = 0
              rw [bytesToHex_length]
              omega
            · show (bytesToHex bs).all isHexChar = true
              exact bytesToHex_all_hex bs
    · exact absurd h (by simp)

/-- C8 amended witness: instantiated on the counterexample URL, whose
candidate has the empty (still well-formed) secret. -/
theorem extract_candidate_secret_wellformed_witness :
    (∃ bs : List Nat, ("" : String) = String.mk (bytesToHex bs))
  ∧ ("" : String).length % 2 = 0
  ∧ ("" : String).toList.all isHexChar = true :=
  extract_candidate_secret_wellformed
    ("https://t.me/proxy?server=a&port=0&secret=%3D%3D%3D%3D") ("a") 0 ("") (by rfl)
